import Mathlib

/-!
Verification of the Donut-Diaries backend queue/notification core.

Shallow embedding of `src/queue.py`, `src/websocket_manager.py` and
`src/order/dependencies.py` (with `src/order/service.py` /
`src/order/router.py` for order placement).  Persistence (`save`) is
modelled at the value level: the in-memory document state after each
operation is the persisted state.  Async methods are modelled as pure
state transformers; machine floats (prices) are modelled as rationals,
UUIDs / object ids as strings or naturals.
-/

namespace DonutBackend

/-- `STATUS` enum of `src/order/models.py`. -/
inductive STATUS
  | CANCELED
  | WAITING
  | PROCESSING
  | COMPLETED
deriving DecidableEq, Repr

/-- `FoodItem` of `src/order/models.py`: a food id with an ordered quantity. -/
structure FoodItem where
  food_id : Nat
  quantity : Nat
deriving DecidableEq, Repr

/-- `Order` document of `src/order/models.py`. -/
structure Order where
  id : String
  vendor_id : String
  consumer_id : String
  foods : List FoodItem
  total_price : ℚ
  status : STATUS
deriving DecidableEq, Repr

/-- `Queue` document of `src/queue.py`: pending orders plus the
current-order slot.  Links are modelled as the fetched order values. -/
structure Queue where
  name : String
  orders : List Order
  current_order : Option Order
deriving DecidableEq, Repr

/-- `Queue.enqueue` (`src/queue.py` lines 56-70): appends the order to
`self.orders`, then saves. -/
def Queue.enqueue (q : Queue) (o : Order) : Queue :=
  { q with orders := q.orders ++ [o] }

/-- `Queue.dequeue` (`src/queue.py` lines 72-91): if `orders` is non-empty,
pops the head into `current_order`, fetches the link and sets its status to
`PROCESSING`; otherwise sets `current_order` to `None`.  Saves and returns
`self.current_order`. -/
def Queue.dequeue (q : Queue) : Queue × Option Order :=
  match q.orders with
  | o :: rest =>
      let o2 := { o with status := STATUS.PROCESSING }
      ({ q with orders := rest, current_order := some o2 }, some o2)
  | [] => ({ q with current_order := none }, none)

/-- `Queue.done` (`src/queue.py` lines 93-104): if `current_order` is set,
fetches the link, sets its status to `COMPLETED` and saves; the slot keeps
the reference.  Otherwise nothing happens. -/
def Queue.done (q : Queue) : Queue :=
  match q.current_order with
  | some o => { q with current_order := some { o with status := STATUS.COMPLETED } }
  | none => q

/-- A freshly created queue for a vendor: empty pending list, empty slot
(as created in `src/vendor/service.py` alongside the vendor). -/
def mkQueue (name : String) : Queue :=
  { name := name, orders := [], current_order := none }

/-- Repeated `enqueue` of a list of orders, in call order. -/
def enqueueAll (q : Queue) (l : List Order) : Queue :=
  l.foldl Queue.enqueue q

/-- `n` successive `dequeue` calls, collecting the returned values. -/
def dequeueN : Queue → Nat → Queue × List (Option Order)
  | q, 0 => (q, [])
  | q, Nat.succ n =>
      let p := Queue.dequeue q
      let r := dequeueN p.1 n
      (r.1, p.2 :: r.2)

/-- Queue states reachable from a fresh queue by `enqueue` of waiting
orders, `dequeue`, and `done` (= markCurrentCompleted). -/
inductive Reach : Queue → Prop
  | init (name : String) : Reach (mkQueue name)
  | enq {q : Queue} (o : Order) (hq : Reach q) (ho : o.status = STATUS.WAITING) :
      Reach (Queue.enqueue q o)
  | deq {q : Queue} (hq : Reach q) : Reach (Queue.dequeue q).1
  | fin {q : Queue} (hq : Reach q) : Reach (Queue.done q)

/-- A sample waiting order. -/
def orderA : Order :=
  { id := "20240419000056631770", vendor_id := "v1", consumer_id := "c1",
    foods := [], total_price := 0, status := STATUS.WAITING }

/-- A second sample waiting order. -/
def orderB : Order :=
  { orderA with id := "20240419000056631771" }

lemma enqueueAll_orders (l : List Order) : ∀ q : Queue,
    (enqueueAll q l).orders = q.orders ++ l := by
  induction l with
  | nil => intro q; simp [enqueueAll]
  | cons o t ih =>
      intro q
      show (enqueueAll (Queue.enqueue q o) t).orders = _
      rw [ih]
      simp [Queue.enqueue]

lemma dequeueN_returns (l : List Order) : ∀ q : Queue, q.orders = l →
    (dequeueN q l.length).2
      = l.map (fun o => some { o with status := STATUS.PROCESSING }) := by
  induction l with
  | nil => intro q _; simp [dequeueN]
  | cons o t ih =>
      intro q h
      have hd : Queue.dequeue q
          = ({ q with orders := t,
                      current_order := some { o with status := STATUS.PROCESSING } },
             some { o with status := STATUS.PROCESSING }) := by
        simp [Queue.dequeue, h]
      simp only [List.length_cons, dequeueN, hd]
      rw [ih _ rfl]
      simp

/-- C1: `dequeue` on a non-empty pending sequence removes the head, stores
it in the current-order slot with status `processing`, and returns it;
`dequeue` on an empty pending sequence sets the slot to empty and returns
empty. -/
theorem claim_C1_dequeue (q : Queue) :
    (∀ (o : Order) (rest : List Order), q.orders = o :: rest →
        Queue.dequeue q
          = ({ q with orders := rest,
                      current_order := some { o with status := STATUS.PROCESSING } },
             some { o with status := STATUS.PROCESSING })) ∧
    (q.orders = [] →
        Queue.dequeue q = ({ q with current_order := none }, none)) := by
  constructor
  · intro o rest h
    simp [Queue.dequeue, h]
  · intro h
    simp [Queue.dequeue, h]

/-- Witness for C1 on the concrete pending sequence `[A, B]` and on the
empty queue. -/
theorem claim_C1_dequeue_witness :
    Queue.dequeue { name := "v1", orders := [orderA, orderB], current_order := none }
      = ({ name := "v1", orders := [orderB],
           current_order := some { orderA with status := STATUS.PROCESSING } },
         some { orderA with status := STATUS.PROCESSING }) ∧
    Queue.dequeue { name := "v1", orders := [], current_order := none }
      = ({ name := "v1", orders := [], current_order := none }, none) :=
  ⟨(claim_C1_dequeue _).1 orderA [orderB] rfl, (claim_C1_dequeue _).2 rfl⟩

/-- C2: enqueuing any list of orders onto a fresh queue yields a pending
sequence equal to the call order, and `N` subsequent dequeues return the
orders in insertion order (each returned with status `processing`). -/
theorem claim_C2_fifo (name : String) (l : List Order) :
    (enqueueAll (mkQueue name) l).orders = l ∧
    (dequeueN (enqueueAll (mkQueue name) l) l.length).2
      = l.map (fun o => some { o with status := STATUS.PROCESSING }) := by
  have h1 : (enqueueAll (mkQueue name) l).orders = l := by
    rw [enqueueAll_orders]
    simp [mkQueue]
  exact ⟨h1, dequeueN_returns l _ h1⟩

/-- Witness for C2 on the concrete two-order list `[A, B]`. -/
theorem claim_C2_fifo_witness :
    (enqueueAll (mkQueue "v1") [orderA, orderB]).orders = [orderA, orderB] ∧
    (dequeueN (enqueueAll (mkQueue "v1") [orderA, orderB]) 2).2
      = [some { orderA with status := STATUS.PROCESSING },
         some { orderB with status := STATUS.PROCESSING }] :=
  claim_C2_fifo "v1" [orderA, orderB]

/-- Counterexample to C3 as stated: after enqueue, dequeue, and
markCurrentCompleted (`done`), the current-order slot is non-empty but the
referenced order has status `completed`, not `processing`. -/
theorem claim_C3_counterexample :
    ¬ (∀ q : Queue, Reach q → ∀ o : Order,
        q.current_order = some o → o.status = STATUS.PROCESSING) := by
  intro h
  have hr : Reach (Queue.done (Queue.dequeue (Queue.enqueue (mkQueue "v1") orderA)).1) :=
    Reach.fin (Reach.deq (Reach.enq orderA (Reach.init "v1") rfl))
  have hc := h _ hr { orderA with status := STATUS.COMPLETED } rfl
  exact absurd hc (by decide)

/-- C3 (amended): in every reachable queue state, a non-empty current-order
slot references an order whose status is `processing` or `completed`. -/
theorem claim_C3_slot_status (q : Queue) (hq : Reach q) :
    ∀ o : Order, q.current_order = some o →
      o.status = STATUS.PROCESSING ∨ o.status = STATUS.COMPLETED := by
  induction hq with
  | init name =>
      intro o ho
      simp [mkQueue] at ho
  | enq o2 hq2 ho2 ih =>
      intro o ho
      exact ih o (by simpa [Queue.enqueue] using ho)
  | deq hq2 ih =>
      rename_i q2
      intro o ho
      cases h : q2.orders with
      | nil =>
          rw [show Queue.dequeue q2 = ({ q2 with current_order := none }, none) by
            simp [Queue.dequeue, h]] at ho
          simp at ho
      | cons a t =>
          rw [show Queue.dequeue q2
              = ({ q2 with orders := t,
                           current_order := some { a with status := STATUS.PROCESSING } },
                 some { a with status := STATUS.PROCESSING }) by
            simp [Queue.dequeue, h]] at ho
          simp at ho
          rw [← ho]
          exact Or.inl rfl
  | fin hq2 ih =>
      rename_i q2
      intro o ho
      cases h : q2.current_order with
      | none =>
          rw [show Queue.done q2 = q2 by simp [Queue.done, h]] at ho
          rw [h] at ho
          exact absurd ho (by simp)
      | some a =>
          rw [show Queue.done q2
              = { q2 with current_order := some { a with status := STATUS.COMPLETED } } by
            simp [Queue.done, h]] at ho
          simp at ho
          rw [← ho]
          exact Or.inr rfl

/-- Witness for the amended C3: the state after enqueue + dequeue is
reachable and its slot holds a processing order. -/
theorem claim_C3_slot_status_witness :
    Order.status { orderA with status := STATUS.PROCESSING } = STATUS.PROCESSING ∨
    Order.status { orderA with status := STATUS.PROCESSING } = STATUS.COMPLETED :=
  claim_C3_slot_status _ (Reach.deq (Reach.enq orderA (Reach.init "v1") rfl))
    { orderA with status := STATUS.PROCESSING } rfl

/-- C4: `done` (markCurrentCompleted) on a non-empty slot sets the slot
order's status to `completed`, keeps the (stale) reference in the slot, and
leaves the pending sequence unchanged; on an empty slot it changes
nothing. -/
theorem claim_C4_done (q : Queue) :
    (∀ o : Order, q.current_order = some o →
        Queue.done q
          = { q with current_order := some { o with status := STATUS.COMPLETED } } ∧
        (Queue.done q).orders = q.orders) ∧
    (q.current_order = none → Queue.done q = q) := by
  constructor
  · intro o h
    constructor
    · simp [Queue.done, h]
    · simp [Queue.done, h]
  · intro h
    simp [Queue.done, h]

/-- Witness for C4 with a concrete processing order in the slot and with an
empty slot. -/
theorem claim_C4_done_witness :
    Queue.done { name := "v1", orders := [orderB],
                 current_order := some { orderA with status := STATUS.PROCESSING } }
      = { name := "v1", orders := [orderB],
          current_order := some { orderA with status := STATUS.COMPLETED } } ∧
    Queue.done { name := "v1", orders := [orderB], current_order := none }
      = { name := "v1", orders := [orderB], current_order := none } :=
  ⟨((claim_C4_done _).1 { orderA with status := STATUS.PROCESSING } rfl).1,
   (claim_C4_done _).2 rfl⟩

/-- A change observed on the queue collection, as reported by the backing
store: operation type, the names of the updated fields
(`updateDescription.updatedFields`), and the full updated document. -/
structure ChangeEvent where
  operationType : String
  updatedFields : List String
  fullDocument : Queue
deriving DecidableEq, Repr

/-- One `$match` stage of a change-stream aggregation pipeline: requires a
given `operationType` and that a given updated field `$exists`. -/
structure MatchStage where
  opType : String
  existsField : String
deriving DecidableEq, Repr

/-- The pipeline built in `__QueueChangeStream.__init__`
(`src/queue.py` lines 165-174): operation type `update` and
`updateDescription.updatedFields.orders` exists. -/
def queuePipeline : List MatchStage :=
  [{ opType := "update", existsField := "orders" }]

/-- MongoDB semantics of one `$match` stage applied to a change event. -/
def evalStage (s : MatchStage) (ev : ChangeEvent) : Bool :=
  ev.operationType == s.opType && ev.updatedFields.contains s.existsField

/-- The change-stream cursor: the store's raw change sequence filtered by
the aggregation pipeline (`db.queue.watch(pipeline=...)`). -/
def cursorEvents (p : List MatchStage) (events : List ChangeEvent) : List ChangeEvent :=
  events.filter (fun ev => p.all (fun s => evalStage s ev))

/-- `__QueueChangeStream.watch` (`src/queue.py` lines 230-251): iterates the
cursor and calls `on_change(change["fullDocument"])` for each delivered
change; the value is the list of documents passed to the callback, in
order. -/
def watchInvocations (events : List ChangeEvent) : List Queue :=
  (cursorEvents queuePipeline events).map ChangeEvent.fullDocument

/-- The spec's wording for when a Queue Change Feed event fires: the
persisted change is an update touching the pending-orders field. -/
def specFeedFires (ev : ChangeEvent) : Prop :=
  ev.operationType = "update" ∧ "orders" ∈ ev.updatedFields

instance specFeedFiresDecidable (ev : ChangeEvent) : Decidable (specFeedFires ev) :=
  inferInstanceAs (Decidable (ev.operationType = "update" ∧ "orders" ∈ ev.updatedFields))

/-- C5: the change feed invokes its callback exactly on update operations
whose updated fields include `orders`: the pipeline filter agrees with the
spec predicate, the callback-invocation sequence is the matching events'
documents in store order, and a name-only update produces no invocation. -/
theorem claim_C5_feed_filter :
    (∀ ev : ChangeEvent,
        (queuePipeline.all (fun s => evalStage s ev)) = true ↔ specFeedFires ev) ∧
    (∀ events : List ChangeEvent,
        watchInvocations events
          = (events.filter (fun ev => decide (specFeedFires ev))).map
              ChangeEvent.fullDocument) ∧
    (∀ q : Queue, watchInvocations
        [{ operationType := "update", updatedFields := ["name"], fullDocument := q }]
        = []) := by
  have hstage : ∀ ev : ChangeEvent,
      (queuePipeline.all (fun s => evalStage s ev)) = true ↔ specFeedFires ev := by
    intro ev
    simp [queuePipeline, evalStage, specFeedFires, List.elem_iff]
  refine ⟨hstage, ?_, ?_⟩
  · intro events
    unfold watchInvocations cursorEvents
    congr 1
    apply List.filter_congr
    intro ev _
    rw [Bool.eq_iff_iff, hstage ev, decide_eq_true_iff]
  · intro q
    rfl

/-- Witness for C5: a rename-only update event yields no callback. -/
theorem claim_C5_feed_filter_witness :
    watchInvocations
      [{ operationType := "update", updatedFields := ["name"],
         fullDocument := mkQueue "B" }] = [] :=
  claim_C5_feed_filter.2.2 (mkQueue "B")

/-- The inner `__QueueChangeStream` state created by its `__init__`
(`src/queue.py` lines 155-213): a database handle (modelled as an id), the
pipeline, the full-document option, the watching flag, and the cursor. -/
structure QCSInst where
  db : Nat
  pipeline : List MatchStage
  full_document : String
  watching : Bool
  change_stream_cursor : Option Nat
deriving DecidableEq, Repr

/-- `__QueueChangeStream.__init__`: `full_document or "updateLookup"`
(Python `or` treats `None` and `""` as falsy). -/
def mkQCSInst (db : Nat) (full_document : Option String) : QCSInst :=
  { db := db,
    pipeline := queuePipeline,
    full_document :=
      match full_document with
      | some s => if s = "" then "updateLookup" else s
      | none => "updateLookup",
    watching := false,
    change_stream_cursor := none }

/-- The `db` argument of `QueueChangeStream.__new__`: either an
`AsyncIOMotorDatabase` handle or a value of some other type. -/
inductive DbArg
  | motorDb (db : Nat)
  | otherObject
deriving DecidableEq, Repr

/-- `QueueChangeStream.__new__` (`src/queue.py` lines 262-290): given the
current `_instance` class attribute and the `db` argument, returns the
raised error, or the returned instance together with the new `_instance`.
If `_instance` is set, all arguments are ignored. -/
def qcsNew (instance_ : Option QCSInst) (db : Option DbArg) :
    Except String (QCSInst × Option QCSInst) :=
  match instance_, db with
  | none, none => .error "db must be given for first call"
  | none, some (DbArg.motorDb d) =>
      let i := mkQCSInst d none
      .ok (i, some i)
  | none, some DbArg.otherObject =>
      .error "db must be of type AsyncIOMotorDatabase"
  | some i, _ => .ok (i, some i)

/-- C10: the first construction raises `ValueError` when no database handle
is supplied or when it has the wrong type, succeeds on a proper handle, and
every construction after a successful first one returns the existing
singleton unchanged, ignoring its arguments. -/
theorem claim_C10_singleton_new :
    qcsNew none none = .error "db must be given for first call" ∧
    qcsNew none (some DbArg.otherObject)
      = .error "db must be of type AsyncIOMotorDatabase" ∧
    (∀ d : Nat, qcsNew none (some (DbArg.motorDb d))
        = .ok (mkQCSInst d none, some (mkQCSInst d none))) ∧
    (∀ (i : QCSInst) (db : Option DbArg), qcsNew (some i) db = .ok (i, some i)) :=
  ⟨rfl, rfl, fun _ => rfl, fun _ _ => rfl⟩

/-- Python `dict` lookup (`d.get(k)` / `d[k]`), on an insertion-ordered
association list with unique keys. -/
def dictGet {κ α : Type} [DecidableEq κ] : List (κ × α) → κ → Option α
  | [], _ => none
  | (k2, v) :: rest, k => if k2 = k then some v else dictGet rest k

/-- Python `d[k] = v`: updates the value in place if the key is present
(keeping its position), otherwise appends the new entry at the end. -/
def dictSet {κ α : Type} [DecidableEq κ] : List (κ × α) → κ → α → List (κ × α)
  | [], k, v => [(k, v)]
  | (k2, v2) :: rest, k, v =>
      if k2 = k then (k2, v) :: rest else (k2, v2) :: dictSet rest k v

/-- Python `del d[k]`: removes the entry for the key (first occurrence;
keys are unique). -/
def dictDel {κ α : Type} [DecidableEq κ] : List (κ × α) → κ → List (κ × α)
  | [], _ => []
  | (k2, v2) :: rest, k =>
      if k2 = k then rest else (k2, v2) :: dictDel rest k

/-- `fastapi.websockets.WebSocketState`. -/
inductive WebSocketState
  | CONNECTING
  | CONNECTED
  | DISCONNECTED
deriving DecidableEq, Repr

/-- State of the `__WebsocketManager` singleton together with the transport
state of the websockets it may touch: the owning module name, the
insertion-ordered `active_connections` map (vendor name to websocket id),
the application state of each websocket (by id), and the log of text frames
delivered so far (websocket id, message). -/
structure WMState where
  module_name : String
  active_connections : List (String × Nat)
  socket_states : List (Nat × WebSocketState)
  sent : List (Nat × String)
deriving DecidableEq, Repr

/-- Transport state of a websocket id. -/
def sockState (w : WMState) (wid : Nat) : Option WebSocketState :=
  dictGet w.socket_states wid

/-- `websocket.accept()`: the websocket's application state becomes
`CONNECTED`. -/
def wsAccept (w : WMState) (wid : Nat) : WMState :=
  { w with socket_states := dictSet w.socket_states wid WebSocketState.CONNECTED }

/-- `websocket.close(...)`: the websocket's application state becomes
`DISCONNECTED`. -/
def wsCloseSock (w : WMState) (wid : Nat) : WMState :=
  { w with socket_states := dictSet w.socket_states wid WebSocketState.DISCONNECTED }

/-- `__WebsocketManager.close` (`src/websocket_manager.py` lines 126-142):
if a websocket is registered under the name and its application state is
`CONNECTED`, closes it.  The registry entry is not removed. -/
def wmClose (w : WMState) (name : String) : WMState :=
  match dictGet w.active_connections name with
  | some wid =>
      if sockState w wid = some WebSocketState.CONNECTED then wsCloseSock w wid else w
  | none => w

/-- `__WebsocketManager.connect` (`src/websocket_manager.py` lines
108-124): accepts the new websocket, closes any websocket mapped to the
name, then registers the new websocket under the name. -/
def wmConnect (w : WMState) (name : String) (wid : Nat) : WMState :=
  let w1 := wsAccept w wid
  let w2 := wmClose w1 name
  { w2 with active_connections := dictSet w2.active_connections name wid }

/-- `__WebsocketManager.remove_connection` (`src/websocket_manager.py`
lines 144-157): deletes the entry if a name is given, swallowing
`KeyError`. -/
def wmRemoveConnection (w : WMState) (name : Option String) : WMState :=
  match name with
  | some n => { w with active_connections := dictDel w.active_connections n }
  | none => w

/-- `__WebsocketManager.send_personal_message` (`src/websocket_manager.py`
lines 159-185): sends to the connection under the name if it is connected;
if it is disconnected, removes it from `active_connections`; otherwise only
logs a warning.  Total (never raises). -/
def wmSendPersonalMessage (w : WMState) (message : String) (name : String) : WMState :=
  match dictGet w.active_connections name with
  | some wid =>
      match sockState w wid with
      | some WebSocketState.CONNECTED => { w with sent := w.sent ++ [(wid, message)] }
      | some WebSocketState.DISCONNECTED => wmRemoveConnection w (some name)
      | _ => w
  | none => w

/-- `__WebsocketManager.shutdown` (`src/websocket_manager.py` lines
207-253) with an explicitly given module name.  If it differs from the
owner's, the call only logs a warning.  If it matches, the code iterates
`self.active_connections.keys()` while `remove_connection` deletes from the
same dict, so CPython raises `RuntimeError` when the iterator is resumed
after the first entry was closed and removed; the mutations made before the
raise persist.  Returns the resulting state and the raised error, if
any. -/
def wmShutdown (w : WMState) (module_name : String) : WMState × Option String :=
  if module_name = w.module_name then
    match w.active_connections with
    | [] => (w, none)
    | (name, _) :: _ =>
        (wmRemoveConnection (wmClose w name) (some name),
         some "RuntimeError: dictionary changed size during iteration")
  else (w, none)

/-- C6 fails on the code: with the owner's module identity and two
registered connections, `shutdown` closes and removes only the first and
then raises `RuntimeError` (dict mutated during iteration), leaving the
second connection registered; only the refusal half of the claim holds
(a foreign module name changes nothing and raises nothing). -/
theorem claim_C6_shutdown_bug :
    wmShutdown
      { module_name := "src.app",
        active_connections := [("A", 1), ("B", 2)],
        socket_states := [(1, WebSocketState.CONNECTED), (2, WebSocketState.CONNECTED)],
        sent := [] } "src.app"
      = ({ module_name := "src.app",
           active_connections := [("B", 2)],
           socket_states := [(1, WebSocketState.DISCONNECTED), (2, WebSocketState.CONNECTED)],
           sent := [] },
         some "RuntimeError: dictionary changed size during iteration") ∧
    wmShutdown
      { module_name := "src.app",
        active_connections := [("A", 1), ("B", 2)],
        socket_states := [(1, WebSocketState.CONNECTED), (2, WebSocketState.CONNECTED)],
        sent := [] } "other.module"
      = ({ module_name := "src.app",
           active_connections := [("A", 1), ("B", 2)],
           socket_states := [(1, WebSocketState.CONNECTED), (2, WebSocketState.CONNECTED)],
           sent := [] },
         none) := by
  constructor
  · rfl
  · rfl

/-- C8: `connect(name, conn1)` then `connect(name, conn2)` leaves conn1
closed (disconnected) and the registry mapping the name to conn2 only, with
conn2 accepted (connected). -/
theorem claim_C8_connect_lww (owner name : String) (wid1 wid2 : Nat)
    (h : wid1 ≠ wid2) (s1 s2 : WebSocketState) :
    (wmConnect (wmConnect
        { module_name := owner, active_connections := [],
          socket_states := [(wid1, s1), (wid2, s2)], sent := [] } name wid1)
        name wid2).active_connections = [(name, wid2)] ∧
    sockState (wmConnect (wmConnect
        { module_name := owner, active_connections := [],
          socket_states := [(wid1, s1), (wid2, s2)], sent := [] } name wid1)
        name wid2) wid1 = some WebSocketState.DISCONNECTED ∧
    sockState (wmConnect (wmConnect
        { module_name := owner, active_connections := [],
          socket_states := [(wid1, s1), (wid2, s2)], sent := [] } name wid1)
        name wid2) wid2 = some WebSocketState.CONNECTED := by
  refine ⟨?_, ?_, ?_⟩ <;>
    simp [wmConnect, wmClose, wsAccept, wsCloseSock, sockState,
      dictGet, dictSet, h, Ne.symm h]

/-- Witness for C8 at concrete names and websocket ids. -/
theorem claim_C8_connect_lww_witness :
    (wmConnect (wmConnect
        { module_name := "src.app", active_connections := [],
          socket_states := [(1, WebSocketState.CONNECTING), (2, WebSocketState.CONNECTING)],
          sent := [] } "V" 1) "V" 2).active_connections = [("V", 2)] ∧
    sockState (wmConnect (wmConnect
        { module_name := "src.app", active_connections := [],
          socket_states := [(1, WebSocketState.CONNECTING), (2, WebSocketState.CONNECTING)],
          sent := [] } "V" 1) "V" 2) 1 = some WebSocketState.DISCONNECTED ∧
    sockState (wmConnect (wmConnect
        { module_name := "src.app", active_connections := [],
          socket_states := [(1, WebSocketState.CONNECTING), (2, WebSocketState.CONNECTING)],
          sent := [] } "V" 1) "V" 2) 2 = some WebSocketState.CONNECTED :=
  claim_C8_connect_lww "src.app" "V" 1 2 (by decide) WebSocketState.CONNECTING
    WebSocketState.CONNECTING

/-- C9: `send_personal_message` never raises (it is a total function): a
registered connected socket receives the text with no registry change; a
registered disconnected socket is silently evicted and nothing is sent; an
unregistered name leaves the state entirely unchanged (only a warning is
logged). -/
theorem claim_C9_send_safe (w : WMState) (name message : String) :
    (∀ wid : Nat, dictGet w.active_connections name = some wid →
        sockState w wid = some WebSocketState.CONNECTED →
        wmSendPersonalMessage w message name
          = { w with sent := w.sent ++ [(wid, message)] }) ∧
    (∀ wid : Nat, dictGet w.active_connections name = some wid →
        sockState w wid = some WebSocketState.DISCONNECTED →
        wmSendPersonalMessage w message name
          = { w with active_connections := dictDel w.active_connections name }) ∧
    (dictGet w.active_connections name = none →
        wmSendPersonalMessage w message name = w) := by
  refine ⟨?_, ?_, ?_⟩
  · intro wid h1 h2
    simp [wmSendPersonalMessage, h1, h2]
  · intro wid h1 h2
    simp [wmSendPersonalMessage, wmRemoveConnection, h1, h2]
  · intro h1
    simp [wmSendPersonalMessage, h1]

/-- Witness for C9: the three cases at concrete registries. -/
theorem claim_C9_send_safe_witness :
    wmSendPersonalMessage
      { module_name := "src.app", active_connections := [("V", 5)],
        socket_states := [(5, WebSocketState.CONNECTED)], sent := [] } "hi" "V"
      = { module_name := "src.app", active_connections := [("V", 5)],
          socket_states := [(5, WebSocketState.CONNECTED)], sent := [(5, "hi")] } ∧
    wmSendPersonalMessage
      { module_name := "src.app", active_connections := [("V", 5)],
        socket_states := [(5, WebSocketState.DISCONNECTED)], sent := [] } "hi" "V"
      = { module_name := "src.app", active_connections := [],
          socket_states := [(5, WebSocketState.DISCONNECTED)], sent := [] } ∧
    wmSendPersonalMessage
      { module_name := "src.app", active_connections := [("V", 5)],
        socket_states := [(5, WebSocketState.CONNECTED)], sent := [] } "hi" "W"
      = { module_name := "src.app", active_connections := [("V", 5)],
          socket_states := [(5, WebSocketState.CONNECTED)], sent := [] } :=
  ⟨(claim_C9_send_safe _ "V" "hi").1 5 rfl rfl,
   (claim_C9_send_safe _ "V" "hi").2.1 5 rfl rfl,
   (claim_C9_send_safe _ "W" "hi").2.2 rfl⟩

/-- `OrderCreate` of `src/order/models.py`. -/
structure OrderCreate where
  vendor_id : String
  consumer_id : Option String
  foods : List FoodItem
  total_price : ℚ
  status : STATUS
deriving DecidableEq, Repr

/-- One step of the `defaultdict(int)` accumulation in `remove_duplicates`
(`src/order/dependencies.py` lines 128-148): `d[it.food_id] += it.quantity`
with default `0`; a fresh key is appended at the end (dict insertion
order). -/
def addFoodItem (d : List (Nat × Nat)) (it : FoodItem) : List (Nat × Nat) :=
  match dictGet d it.food_id with
  | some q => dictSet d it.food_id (q + it.quantity)
  | none => d ++ [(it.food_id, it.quantity)]

/-- `remove_duplicates`: merges duplicate food ids, summing quantities,
keys in first-occurrence order. -/
def remove_duplicates (food_items : List FoodItem) : List FoodItem :=
  (food_items.foldl addFoodItem []).map
    (fun p => { food_id := p.1, quantity := p.2 })

/-- The dict comprehension `{food.food_id: food.quantity for food in
food_items}` of `validate_total_price` (last occurrence wins). -/
def foodQtyDict (food_items : List FoodItem) : List (Nat × Nat) :=
  food_items.foldl (fun d it => dictSet d it.food_id it.quantity) []

/-- The sum computed by `validate_total_price`
(`src/order/dependencies.py` lines 100-125): over the catalog documents
(`Food` collection, projected to id and price) whose id occurs among the
ordered food ids, unit price times the ordered quantity.  The dict lookup
`food_items_dict[food.id]` cannot fail there because the catalog list is
filtered to ids drawn from the dict's keys; `getD 0` renders the same total
function. -/
def codeTotal (catalog : List (Nat × ℚ)) (food_items : List FoodItem) : ℚ :=
  ((catalog.filter
      (fun c => (food_items.map FoodItem.food_id).contains c.1)).map
    (fun c => c.2 * (((dictGet (foodQtyDict food_items) c.1).getD 0 : Nat) : ℚ))).sum

/-- `validate_total_price`: raises `HTTPException` "Food prices don't
match" when the submitted total differs from the computed total. -/
def validate_total_price (total_price : ℚ) (food_items : List FoodItem)
    (catalog : List (Nat × ℚ)) : Except String Unit :=
  if total_price ≠ codeTotal catalog food_items then
    .error "Food prices don't match"
  else .ok ()

/-- `validate_foods` (`src/order/dependencies.py` lines 77-97): raises on
the first ordered food id not found in the vendor's menu. -/
def validate_foods (foodItems : List FoodItem) (menu_ids : List Nat) :
    Except String Unit :=
  match foodItems.find? (fun it => !(menu_ids.contains it.food_id)) with
  | some it => .error ("Invalid food with id: " ++ toString it.food_id)
  | none => .ok ()

/-- `validate_order_create` (`src/order/dependencies.py` lines 151-179),
with the consumer and vendor lookups abstracted to an existing consumer id
and the vendor's menu food ids: sets the consumer id, deduplicates the
foods, validates the foods against the menu, then the total price against
the catalog, and returns the validated order body. -/
def validate_order_create (catalog : List (Nat × ℚ)) (menu_ids : List Nat)
    (consumer_id : String) (oc : OrderCreate) : Except String OrderCreate :=
  match validate_foods (remove_duplicates oc.foods) menu_ids with
  | .error e => .error e
  | .ok _ =>
      match validate_total_price oc.total_price (remove_duplicates oc.foods) catalog with
      | .error e => .error e
      | .ok _ => .ok { oc with consumer_id := some consumer_id,
                               foods := remove_duplicates oc.foods }

/-- `Order(**order_create.model_dump())` in `create_order`
(`src/order/service.py`), with the time-derived id passed explicitly. -/
def mkOrder (oid : String) (oc : OrderCreate) : Order :=
  { id := oid, vendor_id := oc.vendor_id,
    consumer_id := oc.consumer_id.getD "", foods := oc.foods,
    total_price := oc.total_price, status := oc.status }

/-- The `place_order` route (`src/order/router.py`): on successful
validation, `create_order` builds the order and appends it to the vendor's
queue (`enqueue_order`); on a validation error nothing is created and the
queue is untouched.  Returns the response and the vendor's queue state. -/
def place_order (catalog : List (Nat × ℚ)) (menu_ids : List Nat)
    (consumer_id oid : String) (q : Queue) (oc : OrderCreate) :
    Except String Order × Queue :=
  match validate_order_create catalog menu_ids consumer_id oc with
  | .error e => (.error e, q)
  | .ok oc2 =>
      let o := mkOrder oid oc2
      (.ok o, Queue.enqueue q o)

/-- Current catalog unit price of a food id (`FoodPriceView`). -/
def priceOf (catalog : List (Nat × ℚ)) (id : Nat) : ℚ :=
  (dictGet catalog id).getD 0

/-- The spec's total: sum over the (deduplicated) line items of current
catalog unit price times quantity. -/
def specTotal (catalog : List (Nat × ℚ)) (items : List FoodItem) : ℚ :=
  (items.map (fun it => priceOf catalog it.food_id * (it.quantity : ℚ))).sum

lemma dictGet_eq_none {κ α : Type} [DecidableEq κ] (d : List (κ × α)) (k : κ) :
    dictGet d k = none ↔ k ∉ d.map Prod.fst := by
  induction d with
  | nil => simp [dictGet]
  | cons p rest ih =>
      obtain ⟨k2, v⟩ := p
      by_cases h : k2 = k
      · subst h
        simp [dictGet]
      · rw [show dictGet ((k2, v) :: rest) k = dictGet rest k by simp [dictGet, h]]
        simp [ih, Ne.symm h]

lemma dictGet_of_mem_nodup {κ α : Type} [DecidableEq κ] (d : List (κ × α))
    (k : κ) (v : α) (hnd : (d.map Prod.fst).Nodup) (hmem : (k, v) ∈ d) :
    dictGet d k = some v := by
  induction d with
  | nil => simp at hmem
  | cons p rest ih =>
      obtain ⟨k2, v2⟩ := p
      simp only [List.map_cons, List.nodup_cons] at hnd
      rcases List.mem_cons.mp hmem with h | h
      · injection h with h1 h2
        subst h1
        subst h2
        simp [dictGet]
      · have hne : k2 ≠ k := by
          intro heq
          subst heq
          exact hnd.1 (List.mem_map.mpr ⟨(k2, v), h, rfl⟩)
        rw [show dictGet ((k2, v2) :: rest) k = dictGet rest k by
          simp [dictGet, hne]]
        exact ih hnd.2 h

lemma dictSet_fst_of_mem {κ α : Type} [DecidableEq κ] (d : List (κ × α))
    (k : κ) (v : α) (h : k ∈ d.map Prod.fst) :
    (dictSet d k v).map Prod.fst = d.map Prod.fst := by
  induction d with
  | nil => simp at h
  | cons p rest ih =>
      obtain ⟨k2, v2⟩ := p
      by_cases hk : k2 = k
      · simp [dictSet, hk]
      · have : k ∈ rest.map Prod.fst := by
          rcases List.mem_cons.mp h with h1 | h1
          · exact absurd h1.symm hk
          · exact h1
        simp [dictSet, hk, ih this]

lemma dictSet_of_not_mem {κ α : Type} [DecidableEq κ] (d : List (κ × α))
    (k : κ) (v : α) (h : k ∉ d.map Prod.fst) :
    dictSet d k v = d ++ [(k, v)] := by
  induction d with
  | nil => rfl
  | cons p rest ih =>
      obtain ⟨k2, v2⟩ := p
      have hk : k2 ≠ k := by
        intro heq
        exact h (by simp [heq])
      have : k ∉ rest.map Prod.fst := fun hm => h (by simp [hm])
      simp [dictSet, hk, ih this]

lemma addFoodItem_nodup (d : List (Nat × Nat)) (it : FoodItem)
    (hnd : (d.map Prod.fst).Nodup) :
    ((addFoodItem d it).map Prod.fst).Nodup := by
  unfold addFoodItem
  cases h : dictGet d it.food_id with
  | some q =>
      have hm : it.food_id ∈ d.map Prod.fst := by
        by_contra hc
        rw [(dictGet_eq_none _ _).mpr hc] at h
        cases h
      rw [dictSet_fst_of_mem _ _ _ hm]
      exact hnd
  | none =>
      have hm := (dictGet_eq_none _ _).mp h
      simp [List.nodup_append, hnd, hm]

lemma foldl_addFoodItem_nodup (items : List FoodItem) :
    ∀ acc : List (Nat × Nat), (acc.map Prod.fst).Nodup →
      ((items.foldl addFoodItem acc).map Prod.fst).Nodup := by
  induction items with
  | nil => intro acc h; simpa using h
  | cons it rest ih =>
      intro acc h
      exact ih (addFoodItem acc it) (addFoodItem_nodup acc it h)

lemma remove_duplicates_ids_nodup (l : List FoodItem) :
    ((remove_duplicates l).map FoodItem.food_id).Nodup := by
  unfold remove_duplicates
  rw [List.map_map]
  exact foldl_addFoodItem_nodup l [] (by simp)

lemma foldl_dictSet_fresh (items : List FoodItem) :
    ∀ acc : List (Nat × Nat),
      (∀ it ∈ items, it.food_id ∉ acc.map Prod.fst) →
      (items.map FoodItem.food_id).Nodup →
      items.foldl (fun d it => dictSet d it.food_id it.quantity) acc
        = acc ++ items.map (fun it => (it.food_id, it.quantity)) := by
  induction items with
  | nil => intro acc _ _; simp
  | cons it rest ih =>
      intro acc hfresh hnd
      simp only [List.map_cons, List.nodup_cons] at hnd
      simp only [List.foldl_cons]
      rw [dictSet_of_not_mem _ _ _ (hfresh it (by simp))]
      rw [ih (acc ++ [(it.food_id, it.quantity)]) ?_ hnd.2]
      · simp
      · intro it2 h2
        simp only [List.map_append, List.mem_append]
        rintro (hc | hc)
        · exact hfresh it2 (by simp [h2]) hc
        · simp at hc
          apply hnd.1
          rw [← hc]
          exact List.mem_map_of_mem _ h2

lemma foodQtyDict_eq_map (items : List FoodItem)
    (hnd : (items.map FoodItem.food_id).Nodup) :
    foodQtyDict items = items.map (fun it => (it.food_id, it.quantity)) := by
  have h := foldl_dictSet_fresh items [] (by simp) hnd
  simpa [foodQtyDict] using h

lemma dictGet_qty_of_mem (items : List FoodItem) (it : FoodItem)
    (hnd : (items.map FoodItem.food_id).Nodup) (hm : it ∈ items) :
    dictGet (items.map (fun it2 => (it2.food_id, it2.quantity))) it.food_id
      = some it.quantity := by
  apply dictGet_of_mem_nodup
  · rw [List.map_map]
    exact hnd
  · exact List.mem_map_of_mem _ hm

lemma filter_map_fst (catalog : List (Nat × ℚ)) (p : Nat → Bool) :
    (catalog.filter (fun c => p c.1)).map Prod.fst
      = (catalog.map Prod.fst).filter p := by
  induction catalog with
  | nil => rfl
  | cons c cs ih => by_cases h : p c.1 <;> simp [List.filter_cons, h, ih]

lemma codeTotal_eq_specTotal (catalog : List (Nat × ℚ)) (items : List FoodItem)
    (hcat : (catalog.map Prod.fst).Nodup)
    (hids : (items.map FoodItem.food_id).Nodup)
    (hsub : ∀ it ∈ items, it.food_id ∈ catalog.map Prod.fst) :
    codeTotal catalog items = specTotal catalog items := by
  unfold codeTotal specTotal
  rw [foodQtyDict_eq_map items hids]
  have hcode : (catalog.filter
        (fun c => (items.map FoodItem.food_id).contains c.1)).map
        (fun c => c.2 *
          (((dictGet (items.map (fun it2 => (it2.food_id, it2.quantity))) c.1).getD 0 : Nat) : ℚ))
      = ((catalog.filter
          (fun c => (items.map FoodItem.food_id).contains c.1)).map Prod.fst).map
        (fun k => priceOf catalog k *
          (((dictGet (items.map (fun it2 => (it2.food_id, it2.quantity))) k).getD 0 : Nat) : ℚ)) := by
    rw [List.map_map]
    apply List.map_congr_left
    intro c hc
    have hmem : c ∈ catalog := List.mem_of_mem_filter hc
    have hg : dictGet catalog c.1 = some c.2 :=
      dictGet_of_mem_nodup _ _ _ hcat (by simpa using hmem)
    simp [priceOf, hg]
  have hspec : items.map
        (fun it => priceOf catalog it.food_id * (it.quantity : ℚ))
      = (items.map FoodItem.food_id).map
        (fun k => priceOf catalog k *
          (((dictGet (items.map (fun it2 => (it2.food_id, it2.quantity))) k).getD 0 : Nat) : ℚ)) := by
    rw [List.map_map]
    apply List.map_congr_left
    intro it hit
    simp [dictGet_qty_of_mem items it hids hit]
  have hperm : (((catalog.filter
        (fun c => (items.map FoodItem.food_id).contains c.1)).map Prod.fst)).Perm
      (items.map FoodItem.food_id) := by
    rw [filter_map_fst]
    apply List.perm_of_nodup_nodup_toFinset_eq (hcat.filter _) hids
    ext k
    simp only [List.mem_toFinset, List.mem_filter]
    constructor
    · rintro ⟨_, hk⟩
      exact List.elem_iff.mp hk
    · intro hk
      refine ⟨?_, List.elem_iff.mpr hk⟩
      obtain ⟨it, hit, rfl⟩ := List.mem_map.mp hk
      exact hsub it hit
  rw [hcode, hspec]
  exact (hperm.map _).sum_eq

/-- C7: assuming the (deduplicated) line items all pass menu validation and
each has a current catalog price (catalog ids unique), order placement
rejects with the price-mismatch error exactly when the submitted total
differs from the sum over the deduplicated line items of catalog unit price
times quantity; on such a rejection no order is created and the vendor's
queue is unchanged. -/
theorem claim_C7_price_mismatch (catalog : List (Nat × ℚ)) (menu_ids : List Nat)
    (consumer_id oid : String) (q : Queue) (oc : OrderCreate)
    (hcat : (catalog.map Prod.fst).Nodup)
    (hmenu : ∀ it ∈ remove_duplicates oc.foods, it.food_id ∈ menu_ids)
    (hsub : ∀ it ∈ remove_duplicates oc.foods, it.food_id ∈ catalog.map Prod.fst) :
    (validate_order_create catalog menu_ids consumer_id oc
        = .error "Food prices don't match"
      ↔ oc.total_price ≠ specTotal catalog (remove_duplicates oc.foods)) ∧
    (oc.total_price ≠ specTotal catalog (remove_duplicates oc.foods) →
      place_order catalog menu_ids consumer_id oid q oc
        = (.error "Food prices don't match", q)) := by
  have hfoods : validate_foods (remove_duplicates oc.foods) menu_ids = .ok () := by
    unfold validate_foods
    rw [List.find?_eq_none.mpr ?_]
    intro it hit
    simp [List.elem_iff, hmenu it hit]
  have hct := codeTotal_eq_specTotal catalog (remove_duplicates oc.foods) hcat
    (remove_duplicates_ids_nodup _) hsub
  have hvoc : validate_order_create catalog menu_ids consumer_id oc
      = (if oc.total_price ≠ specTotal catalog (remove_duplicates oc.foods) then
          (.error "Food prices don't match" : Except String OrderCreate)
         else .ok { oc with consumer_id := some consumer_id,
                            foods := remove_duplicates oc.foods }) := by
    unfold validate_order_create
    rw [hfoods]
    unfold validate_total_price
    rw [hct]
    by_cases h : oc.total_price ≠ specTotal catalog (remove_duplicates oc.foods)
    · simp [h]
    · simp [h]
  constructor
  · rw [hvoc]
    by_cases h : oc.total_price ≠ specTotal catalog (remove_duplicates oc.foods)
    · simp [h]
    · simp [h]
  · intro h
    unfold place_order
    rw [hvoc]
    simp [h]

/-- Witness for C7: one line item of food 1 at catalog price 50, quantity
2, submitted total 90 ≠ 100: placement rejected with the price-mismatch
error and the queue unchanged. -/
theorem claim_C7_price_mismatch_witness :
    validate_order_create [(1, (50 : ℚ))] [1] "c1"
        { vendor_id := "v1", consumer_id := none,
          foods := [{ food_id := 1, quantity := 2 }],
          total_price := 90, status := STATUS.WAITING }
      = .error "Food prices don't match" ∧
    place_order [(1, (50 : ℚ))] [1] "c1" "o1" (mkQueue "v1")
        { vendor_id := "v1", consumer_id := none,
          foods := [{ food_id := 1, quantity := 2 }],
          total_price := 90, status := STATUS.WAITING }
      = (.error "Food prices don't match", mkQueue "v1") := by
  have h := claim_C7_price_mismatch [(1, (50 : ℚ))] [1] "c1" "o1" (mkQueue "v1")
    { vendor_id := "v1", consumer_id := none,
      foods := [{ food_id := 1, quantity := 2 }],
      total_price := 90, status := STATUS.WAITING }
    (by decide) (by decide) (by decide)
  have hne : ((90 : ℚ))
      ≠ specTotal [(1, (50 : ℚ))]
          (remove_duplicates [{ food_id := 1, quantity := 2 }]) := by
    norm_num [specTotal, priceOf, remove_duplicates, addFoodItem, dictGet, dictSet]
  exact ⟨h.1.mpr hne, h.2 hne⟩

end DonutBackend
